import Mathlib

/-!
Verification of the GitHub Portfolio Analyzer frontend and of its
scoring/enhancement core against the repository specification.

The frontend (React/TypeScript) is embedded shallowly: each handler or
API-client function becomes a pure Lean function over an explicit state or
response value.  The backend scoring engine (FastAPI service) is not part of
the repository snapshot, so its operations are modelled from the
specification, as marked in their doc comments.
-/

/-! ## API client (src/services/api.ts) -/

/-- Shape of a fetch response as seen by the API client: the `ok` flag and
`status` of the HTTP response, the parsed JSON body `json` used on the success
path, and `errorJson`, the outcome of `response.json()` on the error path:
`none` when parsing the body throws (the catch handler substitutes
`detail = "Unknown error"`), `some d` when the body parses with `d` the
optional `detail` field. -/
structure FetchResponse (α : Type) where
  ok : Bool
  status : Nat
  json : α
  errorJson : Option (Option String)

/-- Result of the catch attached to the body parse: a parse failure is
replaced by a body whose detail is "Unknown error". -/
def errorDetailField : Option (Option String) → Option String
  | none => some "Unknown error"
  | some d => d

/-- The thrown message `error.detail || "HTTP " + status`: a missing or empty
(falsy) detail field falls back to the HTTP status text. -/
def errorMessage (status : Nat) (parsed : Option (Option String)) : String :=
  match errorDetailField parsed with
  | some s => if s = "" then "HTTP " ++ toString status else s
  | none => "HTTP " ++ toString status

/-- API client `analyzeUser`: one fetch of `/analyze/{username}`; on a
non-ok response throw the error message, otherwise return the parsed body.
The second component counts HTTP requests performed (always one: no retry). -/
def analyzeUser (username : String) (resp : FetchResponse α) :
    Except String α × Nat :=
  let _ := username
  if resp.ok then (Except.ok resp.json, 1)
  else (Except.error (errorMessage resp.status resp.errorJson), 1)

/-- API client `analyzeRepo`: one fetch of `/repo/{username}/{repo}`, same
error handling as `analyzeUser`. -/
def analyzeRepo (username repo : String) (resp : FetchResponse α) :
    Except String α × Nat :=
  let _ := (username, repo)
  if resp.ok then (Except.ok resp.json, 1)
  else (Except.error (errorMessage resp.status resp.errorJson), 1)

/-- API client `enhanceREADME`: one POST of `/enhance/readme` with the given
content and repository name, same error handling as `analyzeUser`. -/
def enhanceREADME (content repoName : String) (resp : FetchResponse α) :
    Except String α × Nat :=
  let _ := (content, repoName)
  if resp.ok then (Except.ok resp.json, 1)
  else (Except.error (errorMessage resp.status resp.errorJson), 1)

/-- API client `enhancePortfolio`: one POST of `/enhance/portfolio`, same
error handling as `analyzeUser`. -/
def enhancePortfolio (username : String) (resp : FetchResponse α) :
    Except String α × Nat :=
  let _ := username
  if resp.ok then (Except.ok resp.json, 1)
  else (Except.error (errorMessage resp.status resp.errorJson), 1)

/-! ## ErrorBoundary (src/components/ErrorBoundary.tsx) -/

/-- State of the ErrorBoundary component: the single `hasError` flag. -/
structure EBState where
  hasError : Bool
deriving DecidableEq

/-- Static `getDerivedStateFromError`: unconditionally returns the state with
`hasError = true`, ignoring the caught error and the previous state. -/
def getDerivedStateFromError : EBState := { hasError := true }

/-- What `render` produces: the fallback UI or the wrapped children. -/
inductive RenderOutput where
  | fallback
  | children
deriving DecidableEq

/-- Render method of the component: fallback UI when `hasError`, otherwise
the children. -/
def renderBoundary (s : EBState) : RenderOutput :=
  if s.hasError then RenderOutput.fallback else RenderOutput.children

/-- Events that can drive the ErrorBoundary during one component lifetime:
a render error caught by React (routed through `getDerivedStateFromError`) or
an ordinary re-render (the component calls `setState` nowhere, so no other
state transition exists). -/
inductive EBEvent where
  | errorCaught
  | rerender

/-- One state transition of the ErrorBoundary. -/
def ebStep (s : EBState) : EBEvent → EBState
  | EBEvent.errorCaught => getDerivedStateFromError
  | EBEvent.rerender => s

/-- A whole lifetime: fold the transitions over a list of events. -/
def ebRun (s : EBState) : List EBEvent → EBState
  | [] => s
  | e :: es => ebRun (ebStep s e) es

/-! ## Dashboard quality badge and RepoDetail quality color -/

/-- Value produced by a JavaScript property read on the colors object
literal: a string own-property, or a member inherited from
`Object.prototype` (a function such as `constructor` or `toString`, or the
`proto` accessor), named by its key.  Every inherited member is truthy and
none of them is a style string. -/
inductive JsValue where
  | str : String → JsValue
  | protoMember : String → JsValue
deriving DecidableEq

/-- The keys an object literal inherits from `Object.prototype`, on which a
bracket read returns a truthy non-string member instead of `undefined`. -/
def objectPrototypeKeys : List String :=
  ["constructor", "hasOwnProperty", "isPrototypeOf", "propertyIsEnumerable",
   "toLocaleString", "toString", "valueOf", "__proto__",
   "__defineGetter__", "__defineSetter__", "__lookupGetter__",
   "__lookupSetter__"]

/-- A JavaScript bracket read `obj[key]` on an object literal with the given
own string properties: an own property wins, otherwise the prototype chain is
consulted, otherwise the result is `undefined` (modelled as `none`). -/
def jsIndex (own : List (String × String)) (key : String) : Option JsValue :=
  match own.lookup key with
  | some v => some (JsValue.str v)
  | none =>
    if key ∈ objectPrototypeKeys then some (JsValue.protoMember key)
    else none

/-- JavaScript truthiness of a property-read result: `undefined` and the
empty string are falsy, non-empty strings and inherited members are truthy. -/
def jsTruthy : Option JsValue → Bool
  | none => false
  | some (JsValue.str s) => if s = "" then false else true
  | some (JsValue.protoMember _) => true

/-- The JavaScript `a || b` on property-read results: the left operand when
truthy, otherwise the right operand. -/
def jsOr (a b : Option JsValue) : Option JsValue :=
  if jsTruthy a then a else b

/-- Badge styles of `getQualityBadge` in the Dashboard component, the own
string properties of its colors object literal. -/
def qualityBadgeColors : List (String × String) :=
  [("excellent", "bg-green-100 text-green-800"),
   ("good", "bg-blue-100 text-blue-800"),
   ("basic", "bg-yellow-100 text-yellow-800"),
   ("minimal", "bg-orange-100 text-orange-800"),
   ("none", "bg-red-100 text-red-800")]

/-- Dashboard `getQualityBadge`, the expression on its colors object
literal: a bracket read of the quality string (own properties first, then
the prototype chain), falling back to the tier `none` style only when that
read is falsy. -/
def getQualityBadge (quality : String) : Option JsValue :=
  jsOr (jsIndex qualityBadgeColors quality) (jsIndex qualityBadgeColors "none")

/-- Color styles of `getQualityColor` in the RepoDetail component. -/
def qualityColorColors : List (String × String) :=
  [("excellent", "text-green-600 bg-green-100"),
   ("good", "text-blue-600 bg-blue-100"),
   ("basic", "text-yellow-600 bg-yellow-100"),
   ("minimal", "text-orange-600 bg-orange-100"),
   ("none", "text-red-600 bg-red-100")]

/-- RepoDetail `getQualityColor`: the same bracket read with fallback as
`getQualityBadge`, different palette. -/
def getQualityColor (quality : String) : Option JsValue :=
  jsOr (jsIndex qualityColorColors quality) (jsIndex qualityColorColors "none")

/-! ## Homepage (handleAnalyze) -/

/-- JavaScript `String.prototype.trim` on the character list: strip leading
and trailing whitespace. -/
def trimChars (s : List Char) : List Char :=
  ((s.dropWhile Char.isWhitespace).reverse.dropWhile Char.isWhitespace).reverse

/-- Trim of a string, as the `trim` call on the form input. -/
def jsTrim (s : String) : String :=
  String.mk (trimChars s.data)

/-- Homepage `handleAnalyze`: after `preventDefault`, navigate to
`/dashboard/<trimmed username>` when the trimmed username is truthy
(non-empty), otherwise do nothing.  `some target` is a navigation to
`target`; `none` is no navigation. -/
def handleAnalyze (username : String) : Option String :=
  if jsTrim username = "" then none
  else some ("/dashboard/" ++ jsTrim username)

/-! ## Dashboard (handleLoadEnhancement) -/

/-- Component state of the Dashboard, abstracted over the analysis payload
type `α` and the enhancement payload type `β`.  `username` is the route
parameter (absent or present). -/
structure DashboardState (α β : Type) where
  username : Option String
  analysis : Option α
  enhancement : Option β
  loading : Bool
  error : Option String
  showEnhancement : Bool

/-- Dashboard `handleLoadEnhancement`: return immediately when the username
is absent (falsy) or the enhancement is already loaded; otherwise perform the
`enhancePortfolio` request, whose outcome is `fetch`.  On success store the
data and show the enhancement; on failure only log.  The boolean reports
whether a network request was performed. -/
def handleLoadEnhancement (s : DashboardState α β) (fetch : Except String β) :
    DashboardState α β × Bool :=
  if s.username.isNone || s.enhancement.isSome then (s, false)
  else
    match fetch with
    | Except.ok d =>
        ({ s with enhancement := some d, showEnhancement := true }, true)
    | Except.error _ => (s, true)

/-- The mounted dashboard as seen by the async handler: the component state,
the number of `enhancePortfolio` requests still in flight, the number of
requests performed so far, and the number of resolutions that stored an
enhancement. -/
structure AsyncDashboard (α β : Type) where
  state : DashboardState α β
  pending : Nat
  fetches : Nat
  stores : Nat

/-- Atomic events of the async handler: a click, which runs the guard
against the current state and, when it passes, starts a fetch; and the
resolution of an in-flight fetch with its outcome. -/
inductive DashEvent (β : Type) where
  | click
  | resolve (r : Except String β)

/-- One atomic step of the mounted dashboard.  `handleLoadEnhancement` reads
its guard before awaiting the fetch and has no busy flag, so a click taken
while requests are still in flight consults the same stale state; a
resolution with nothing in flight is a no-op. -/
def asyncStep (w : AsyncDashboard α β) : DashEvent β → AsyncDashboard α β
  | DashEvent.click =>
    if w.state.username.isNone || w.state.enhancement.isSome then w
    else { w with pending := w.pending + 1, fetches := w.fetches + 1 }
  | DashEvent.resolve r =>
    if w.pending = 0 then w
    else
      match r with
      | Except.ok d =>
        { w with
            pending := w.pending - 1
            stores := w.stores + 1
            state := { w.state with
                         enhancement := some d, showEnhancement := true } }
      | Except.error _ => { w with pending := w.pending - 1 }

/-- A whole interleaving during one mounted dashboard: fold the atomic steps
over a list of events. -/
def dashRun (w : AsyncDashboard α β) : List (DashEvent β) → AsyncDashboard α β
  | [] => w
  | e :: es => dashRun (asyncStep w e) es

/-- The non-overlapping schedules: each click is followed by the resolution
of its request before the next click arrives. -/
def serializedEvents : List (Except String β) → List (DashEvent β)
  | [] => []
  | r :: rs => DashEvent.click :: DashEvent.resolve r :: serializedEvents rs

/-! ## RepoDetail (language percentages) -/

/-- Sum of the language byte counts:
`Object.values(repoData.languages).reduce((a, b) => a + b, 0)`. -/
def totalLanguageBytes (languages : List (String × Nat)) : Nat :=
  (languages.map Prod.snd).sum

/-- The percentage value `(bytes / total) * 100` under JavaScript number
semantics restricted to this use: `none` models a non-finite result (`0/0` is
`NaN`, `b/0` is an infinity), `some q` the finite value. -/
def jsPercent (bytes total : Nat) : Option ℚ :=
  if total = 0 then none
  else some ((bytes : ℚ) / (total : ℚ) * 100)

/-- The language rows rendered by RepoDetail: one row per entry of the
languages mapping, carrying the percentage shown for that language. -/
def languageRows (languages : List (String × Nat)) :
    List (String × Option ℚ) :=
  languages.map fun p => (p.1, jsPercent p.2 (totalLanguageBytes languages))

/-! ## Scoring and Enhancement Engine (modelled from the spec) -/

/-- Modelled from the spec: the ordered README quality tiers of the backend
scorer, `none < minimal < basic < good < excellent` (spec section 3). -/
inductive QualityTier where
  | none
  | minimal
  | basic
  | good
  | excellent
deriving DecidableEq

/-- Position of a tier in the fixed order, for comparisons. -/
def QualityTier.rank : QualityTier → Nat
  | QualityTier.none => 0
  | QualityTier.minimal => 1
  | QualityTier.basic => 2
  | QualityTier.good => 3
  | QualityTier.excellent => 4

/-- Modelled from the spec: the fixed catalog of recognized README section
keywords shared by the classifier (4.1) and the template generator (4.4), in
the canonical order Title/Description, Features, Installation, Usage,
Contributing, License.  Keywords are lowercase; detection is case-insensitive
substring matching. -/
def sectionCatalog : List (List Char) :=
  ["description".data, "features".data, "installation".data,
   "usage".data, "contributing".data, "license".data]

/-- Lowercased character sequence of a text, the case-insensitive view used
by section detection. -/
def lowerChars (text : List Char) : List Char :=
  text.map Char.toLower

/-- Modelled from the spec: a recognized section is detected when its keyword
occurs as a case-insensitive substring of the README text (4.1). -/
def hasSection (text : List Char) (kw : List Char) : Bool :=
  decide (kw <:+: lowerChars text)

/-- The recognized sections found in a README text, as the sub-catalog of
detected keywords. -/
def sectionsFound (text : List Char) : List (List Char) :=
  sectionCatalog.filter (fun kw => hasSection text kw)

/-- Tier assigned to a non-empty README from its recognized-section count:
all six catalog sections give `excellent`, most (at least four) give `good`,
some (at least two) give `basic`, and a README below that structure threshold
is `minimal`. -/
def countTier (n : Nat) : QualityTier :=
  if 6 ≤ n then QualityTier.excellent
  else if 4 ≤ n then QualityTier.good
  else if 2 ≤ n then QualityTier.basic
  else QualityTier.minimal

/-- Modelled from the spec: README quality classification (4.1).  Absent or
empty content is tier `none` (the documented treatment of malformed or empty
content); otherwise the tier grows with the number of recognized sections
found, through `countTier`. -/
def classifyTier (readme : Option (List Char)) : QualityTier :=
  match readme with
  | Option.none => QualityTier.none
  | Option.some text =>
    if text.isEmpty then QualityTier.none
    else countTier (sectionsFound text).length

/-- Modelled from the spec: one RepositoryMetadata record (section 3).  The
last-update timestamp is carried as whole days elapsed since the update. -/
structure RepositoryMetadata where
  name : String
  description : Option String
  languages : List (String × Nat)
  stars : Nat
  forks : Nat
  openIssues : Nat
  daysSinceUpdate : Nat
  isPrivate : Bool
  readme : Option (List Char)
  url : String

/-- Points from the README tier, the factor with the largest weight (4.1). -/
def tierPoints : QualityTier → Nat
  | QualityTier.none => 0
  | QualityTier.minimal => 10
  | QualityTier.basic => 20
  | QualityTier.good => 30
  | QualityTier.excellent => 40

/-- Points for the presence of a description; the documented default for a
missing field is the empty string, which counts as absent. -/
def descriptionPoints (d : Option String) : Nat :=
  match d with
  | Option.none => 0
  | Option.some s => if s = "" then 0 else 10

/-- Points for recency of the last update, decayed by elapsed time with the
documented cutoffs: updated within 6 months, within 24 months, or stale. -/
def recencyPoints (daysSinceUpdate : Nat) : Nat :=
  if daysSinceUpdate ≤ 180 then 20
  else if daysSinceUpdate ≤ 730 then 10
  else 0

/-- Points for stars with diminishing-returns bucket scaling (4.1). -/
def starPoints (stars : Nat) : Nat :=
  if 500 ≤ stars then 15
  else if 100 ≤ stars then 12
  else if 10 ≤ stars then 8
  else if 1 ≤ stars then 4
  else 0

/-- Points for forks with diminishing-returns bucket scaling (4.1). -/
def forkPoints (forks : Nat) : Nat :=
  if 100 ≤ forks then 5
  else if 10 ≤ forks then 3
  else if 1 ≤ forks then 1
  else 0

/-- Points for the open-issue load: a high open-issue count relative to the
normalizing star-based activity factor lowers the score (4.1). -/
def issuePoints (openIssues stars : Nat) : Nat :=
  if openIssues ≤ 5 + stars / 10 then 10
  else if openIssues ≤ 20 + stars / 5 then 5
  else 0

/-- Modelled from the spec: the repository health score (4.1), a weighted sum
of the factor points clamped to the 0 to 100 range.  The factor maxima sum to
100, the clamp keeps the contract explicit. -/
def healthScore (m : RepositoryMetadata) : Nat :=
  min 100
    (tierPoints (classifyTier m.readme) + descriptionPoints m.description +
      recencyPoints m.daysSinceUpdate + starPoints m.stars +
      forkPoints m.forks + issuePoints m.openIssues m.stars)

/-- The per-factor good cutoffs used by the enhancement simulation (4.3):
each factor of a simulated repository is brought up to at least this level. -/
def goodTierPoints : Nat := 30
def goodDescriptionPoints : Nat := 10
def goodRecencyPoints : Nat := 20
def goodStarPoints : Nat := 8
def goodForkPoints : Nat := 1
def goodIssuePoints : Nat := 10

/-- Modelled from the spec: the simulated health score of a repository whose
below-threshold factors were brought up to their good cutoffs (4.3), obtained
by re-running the same clamped weighted sum on the raised factor points. -/
def potentialHealthScore (m : RepositoryMetadata) : Nat :=
  min 100
    (max (tierPoints (classifyTier m.readme)) goodTierPoints +
      max (descriptionPoints m.description) goodDescriptionPoints +
      max (recencyPoints m.daysSinceUpdate) goodRecencyPoints +
      max (starPoints m.stars) goodStarPoints +
      max (forkPoints m.forks) goodForkPoints +
      max (issuePoints m.openIssues m.stars) goodIssuePoints)

/-- Profile-level bonus for owning at least five repositories (4.2). -/
def repoCountBonus (totalRepos : Nat) : Nat :=
  if 5 ≤ totalRepos then 5 else 0

/-- Profile-level bonus for total stars above the threshold (4.2). -/
def starBonus (totalStars : Nat) : Nat :=
  if 100 ≤ totalStars then 5 else 0

/-- Modelled from the spec: the overall portfolio score (4.2), the unweighted
mean of the per-repository health scores (the documented conforming
simplification) plus the profile-level bonuses, clamped to 100. -/
def overallScore (repos : List RepositoryMetadata) (totalStars : Nat) : Nat :=
  if repos.isEmpty then 0
  else
    min 100
      ((repos.map healthScore).sum / repos.length +
        repoCountBonus repos.length + starBonus totalStars)

/-- The overall score of the simulated portfolio: the same aggregation (4.2)
re-run on the simulated per-repository scores. -/
def potentialOverallScore (repos : List RepositoryMetadata)
    (totalStars : Nat) : Nat :=
  if repos.isEmpty then 0
  else
    min 100
      ((repos.map potentialHealthScore).sum / repos.length +
        repoCountBonus repos.length + starBonus totalStars)

/-- Modelled from the spec: an EnhancementPlan (section 3): current and
potential scores plus the three horizon buckets. -/
structure EnhancementPlan where
  current_score : Nat
  potential_score : Nat
  quick_wins : List String
  medium_term : List String
  long_term : List String

/-- Modelled from the spec: the Enhancement Planner (4.3).  The potential
score re-runs the aggregation on the simulated repositories; improvement
opportunities are bucketed by the fixed factor-to-horizon mapping. -/
def planEnhancement (repos : List RepositoryMetadata)
    (totalStars : Nat) : EnhancementPlan :=
  { current_score := overallScore repos totalStars
    potential_score := potentialOverallScore repos totalStars
    quick_wins :=
      (repos.filter (fun m => descriptionPoints m.description <
          goodDescriptionPoints)).map
        (fun m => "Add a description to " ++ m.name) ++
      (repos.filter (fun m => tierPoints (classifyTier m.readme) <
          goodTierPoints)).map
        (fun m => "Add missing README sections to " ++ m.name)
    medium_term :=
      (repos.filter (fun m => recencyPoints m.daysSinceUpdate <
          goodRecencyPoints)).map
        (fun m => "Update " ++ m.name ++ " more frequently") ++
      (repos.filter (fun m => issuePoints m.openIssues m.stars <
          goodIssuePoints)).map
        (fun m => "Triage open issues of " ++ m.name)
    long_term :=
      (repos.filter (fun m => starPoints m.stars < goodStarPoints)).map
        (fun m => "Grow the audience of " ++ m.name) }

/-! ## README Template Generator (modelled from the spec, 4.4) -/

/-- Heading of a synthesized section: a blank line, a markdown second-level
heading with the keyword capitalized, and a blank line. -/
def sectionHeading (kw : List Char) : List Char :=
  match kw with
  | [] => "\n\n".data
  | c :: rest => '\n' :: '#' :: '#' :: ' ' :: Char.toUpper c :: rest ++ "\n\n".data

/-- Modelled from the spec: the generic but contextually-named placeholder
template synthesized for a missing section, referencing the repository
name (4.4). -/
def sectionTemplate (repoName kw : List Char) : List Char :=
  sectionHeading kw ++
    ("This section of ".data ++
      (repoName ++
        (" is a placeholder; replace it with real ".data ++
          (kw ++ " content.\n".data))))

/-- The sections of the catalog not detected in a README text, in canonical
catalog order: the set difference of 4.1. -/
def missingSections (text : List Char) : List (List Char) :=
  sectionCatalog.filter (fun kw => !hasSection text kw)

/-- Modelled from the spec: an EnhancedReadme (section 3): the generated
text plus the list of improvement descriptions. -/
structure EnhancedReadme where
  enhanced_readme : List Char
  improvements : List String

/-- The generated text: existing content preserved verbatim, followed by the
placeholder templates of the missing sections in canonical order. -/
def enhancedText (content repoName : List Char) : List Char :=
  content ++ (missingSections content).flatMap (sectionTemplate repoName)

/-- Modelled from the spec: the README Template Generator (4.4).  Existing
content is preserved verbatim; for each missing catalog section a placeholder
template is appended, in canonical order; the improvements list enumerates
exactly the synthesized sections. -/
def generateEnhancedReadme (content repoName : List Char) : EnhancedReadme :=
  { enhanced_readme := enhancedText content repoName
    improvements :=
      (missingSections content).map
        (fun kw => "Added a " ++ String.mk kw ++ " section") }

/-! ## Theorems -/

/-- C10: submitting the analyze form navigates to `/dashboard/<trimmed
username>` exactly when the entered username is non-empty after trimming
whitespace; a username that is empty or whitespace-only after trimming
causes no navigation. -/
theorem handleAnalyze_navigates_iff (username : String) :
    (jsTrim username ≠ "" →
      handleAnalyze username = some ("/dashboard/" ++ jsTrim username)) ∧
    (jsTrim username = "" → handleAnalyze username = none) := by
  constructor <;> intro h <;> simp [handleAnalyze, h]

/-- Witness for C10: a padded username navigates to its trimmed dashboard
route, and a whitespace-only username does not navigate. -/
theorem handleAnalyze_navigates_iff_witness :
    handleAnalyze "  alice " = some ("/dashboard/" ++ jsTrim "  alice ") ∧
    handleAnalyze "   " = none :=
  ⟨(handleAnalyze_navigates_iff "  alice ").1 (by decide),
   (handleAnalyze_navigates_iff "   ").2 (by decide)⟩

/-- C7 counterexample: the string "constructor" lies outside the five-tier
set, yet the bracket read finds the truthy inherited prototype member, so
both mappings return it instead of the style of tier `none`. -/
theorem qualityStyles_prototype_counterexample :
    "constructor" ∉
      (["excellent", "good", "basic", "minimal", "none"] : List String) ∧
    getQualityBadge "constructor" = some (JsValue.protoMember "constructor") ∧
    getQualityBadge "constructor" ≠ getQualityBadge "none" ∧
    getQualityColor "constructor" ≠ getQualityColor "none" := by
  refine ⟨by decide, by decide, by decide, by decide⟩

/-- C7 as amended: both quality-style mappings assign pairwise distinct
styles to the five tiers; a string outside the five-tier set that is not a
key inherited from the object prototype receives the style of tier `none`;
for an inherited key the truthy prototype member is returned instead of a
style. -/
theorem qualityStyles_distinct_and_fallback (q : String) :
    (["excellent", "good", "basic", "minimal", "none"] : List String).Pairwise
      (fun a b => getQualityBadge a ≠ getQualityBadge b) ∧
    (["excellent", "good", "basic", "minimal", "none"] : List String).Pairwise
      (fun a b => getQualityColor a ≠ getQualityColor b) ∧
    (q ∉ (["excellent", "good", "basic", "minimal", "none"] : List String) →
      q ∉ objectPrototypeKeys →
      getQualityBadge q = getQualityBadge "none" ∧
      getQualityColor q = getQualityColor "none") ∧
    (q ∉ (["excellent", "good", "basic", "minimal", "none"] : List String) →
      q ∈ objectPrototypeKeys →
      getQualityBadge q = some (JsValue.protoMember q) ∧
      getQualityColor q = some (JsValue.protoMember q)) := by
  refine ⟨by decide, by decide, fun hq hp => ?_, fun hq hp => ?_⟩
  all_goals
    simp only [List.mem_cons, List.not_mem_nil, or_false, not_or] at hq
    obtain ⟨h1, h2, h3, h4, h5⟩ := hq
    have hbq : qualityBadgeColors.lookup q = none := by
      simp [qualityBadgeColors, List.lookup,
        beq_eq_false_iff_ne.mpr h1, beq_eq_false_iff_ne.mpr h2,
        beq_eq_false_iff_ne.mpr h3, beq_eq_false_iff_ne.mpr h4,
        beq_eq_false_iff_ne.mpr h5]
    have hcq : qualityColorColors.lookup q = none := by
      simp [qualityColorColors, List.lookup,
        beq_eq_false_iff_ne.mpr h1, beq_eq_false_iff_ne.mpr h2,
        beq_eq_false_iff_ne.mpr h3, beq_eq_false_iff_ne.mpr h4,
        beq_eq_false_iff_ne.mpr h5]
  · constructor
    · simp [getQualityBadge, jsOr, jsIndex, jsTruthy, hbq, hp]
    · simp [getQualityColor, jsOr, jsIndex, jsTruthy, hcq, hp]
  · constructor
    · simp [getQualityBadge, jsOr, jsIndex, jsTruthy, hbq, hp]
    · simp [getQualityColor, jsOr, jsIndex, jsTruthy, hcq, hp]

/-- Witness for C7: an unknown ordinary string receives the styles of tier
`none` in both views, while the inherited key "toString" receives the
prototype member in both. -/
theorem qualityStyles_distinct_and_fallback_witness :
    (getQualityBadge "garbage" = getQualityBadge "none" ∧
      getQualityColor "garbage" = getQualityColor "none") ∧
    (getQualityBadge "toString" = some (JsValue.protoMember "toString") ∧
      getQualityColor "toString" = some (JsValue.protoMember "toString")) :=
  ⟨(qualityStyles_distinct_and_fallback "garbage").2.2.1
      (by decide) (by decide),
   (qualityStyles_distinct_and_fallback "toString").2.2.2
      (by decide) (by decide)⟩

/-- C2: catching a render error sets `hasError`; no transition of the
ErrorBoundary ever takes `hasError` from true back to false; and once
`hasError` holds, every subsequent render over any event sequence returns the
fallback UI instead of the children. -/
theorem errorBoundary_fallback_latched :
    (∀ s : EBState, (ebStep s EBEvent.errorCaught).hasError = true) ∧
    (∀ (s : EBState) (e : EBEvent),
      s.hasError = true → (ebStep s e).hasError = true) ∧
    (∀ (s : EBState) (evs : List EBEvent), s.hasError = true →
      (ebRun s evs).hasError = true ∧
      renderBoundary (ebRun s evs) = RenderOutput.fallback) := by
  have hstep : ∀ (s : EBState) (e : EBEvent),
      s.hasError = true → (ebStep s e).hasError = true := by
    intro s e h
    cases e <;> simp [ebStep, getDerivedStateFromError, h]
  have hrun : ∀ (evs : List EBEvent) (s : EBState), s.hasError = true →
      (ebRun s evs).hasError = true := by
    intro evs
    induction evs with
    | nil => intro s h; simpa [ebRun] using h
    | cons e es ih => intro s h; exact ih (ebStep s e) (hstep s e h)
  refine ⟨fun s => rfl, hstep, fun s evs h => ?_⟩
  refine ⟨hrun evs s h, ?_⟩
  simp [renderBoundary, hrun evs s h]

/-- Witness for C2: starting from the error state, a re-render keeps the
error flag and produces the fallback UI. -/
theorem errorBoundary_fallback_latched_witness :
    (ebRun { hasError := true } [EBEvent.rerender]).hasError = true ∧
    renderBoundary (ebRun { hasError := true } [EBEvent.rerender]) =
      RenderOutput.fallback :=
  errorBoundary_fallback_latched.2.2 { hasError := true } [EBEvent.rerender] rfl

/-- C3: the repository health score always lies in the 0 to 100 range and is
a deterministic, pure function of the metadata: equal inputs yield equal
scores. -/
theorem healthScore_bounded_and_deterministic (m m2 : RepositoryMetadata) :
    healthScore m ≤ 100 ∧ 0 ≤ healthScore m ∧
    (m2 = m → healthScore m2 = healthScore m) :=
  ⟨min_le_left _ _, Nat.zero_le _, fun h => by rw [h]⟩

/-- Witness for C3: a concrete bare repository has a bounded score, and
rescoring the identical record reproduces it. -/
theorem healthScore_bounded_and_deterministic_witness :
    healthScore
        { name := "r", description := none, languages := [], stars := 0,
          forks := 0, openIssues := 0, daysSinceUpdate := 1000,
          isPrivate := false, readme := none, url := "u" } ≤ 100 ∧
    0 ≤ healthScore
        { name := "r", description := none, languages := [], stars := 0,
          forks := 0, openIssues := 0, daysSinceUpdate := 1000,
          isPrivate := false, readme := none, url := "u" } ∧
    healthScore
        { name := "r", description := none, languages := [], stars := 0,
          forks := 0, openIssues := 0, daysSinceUpdate := 1000,
          isPrivate := false, readme := none, url := "u" } =
      healthScore
        { name := "r", description := none, languages := [], stars := 0,
          forks := 0, openIssues := 0, daysSinceUpdate := 1000,
          isPrivate := false, readme := none, url := "u" } :=
  healthScore_bounded_and_deterministic _ _ |>.imp id (fun h => h.imp id (fun f => f rfl))

/-- C9 counterexample: a non-empty languages mapping whose only byte count is
zero renders a language row whose percentage is not a finite number (the
JavaScript quotient 0/0 is NaN), refuting the claim that the percentage is
finite for every non-empty mapping. -/
theorem languageRows_nonfinite_counterexample :
    languageRows [("Python", 0)] = [("Python", none)] ∧
    ([("Python", 0)] : List (String × Nat)) ≠ [] := by
  constructor
  · rfl
  · simp

/-- C9 as amended: an empty languages mapping renders no language rows (and
evaluates no division), and whenever the byte counts sum to a positive total,
every row carries the finite percentage obtained by dividing the byte count
of that language by the total and multiplying by 100. -/
theorem languageRows_spec (languages : List (String × Nat)) :
    (languages = [] → languageRows languages = []) ∧
    (0 < totalLanguageBytes languages →
      languageRows languages = languages.map
        (fun p => (p.1,
          some ((p.2 : ℚ) / (totalLanguageBytes languages : ℚ) * 100)))) := by
  constructor
  · intro h; simp [h, languageRows]
  · intro h
    have hne : totalLanguageBytes languages ≠ 0 := Nat.pos_iff_ne_zero.mp h
    simp [languageRows, jsPercent, hne]

/-- Witness for C9: a two-language mapping with positive total yields the
exact finite percentages. -/
theorem languageRows_spec_witness :
    languageRows ([] : List (String × Nat)) = [] ∧
    (0 < totalLanguageBytes [("TypeScript", 3), ("HTML", 1)] ∧
      languageRows [("TypeScript", 3), ("HTML", 1)] =
        ([("TypeScript", 3), ("HTML", 1)] : List (String × Nat)).map
          (fun p => (p.1,
            some ((p.2 : ℚ) /
              (totalLanguageBytes [("TypeScript", 3), ("HTML", 1)] : ℚ) *
                100)))) :=
  ⟨(languageRows_spec []).1 rfl,
   by decide,
   (languageRows_spec [("TypeScript", 3), ("HTML", 1)]).2 (by decide)⟩

/-- Formulation, following the words of the amended claim, of the error
message an API client operation throws on a non-ok response: the detail field
when present and non-empty (an unparseable body counting as detail
"Unknown error"), otherwise the HTTP status text. -/
def claimedErrorMessage (status : Nat) (errorJson : Option (Option String)) :
    String :=
  match errorJson with
  | some (some d) => if d = "" then "HTTP " ++ toString status else d
  | some none => "HTTP " ++ toString status
  | none => "Unknown error"

/-- C1 counterexample: a non-ok response whose body carries a present but
empty detail field makes `analyzeUser` throw "HTTP 500", not the empty detail
string the claim prescribes for a present detail field. -/
theorem analyzeUser_empty_detail_counterexample :
    (analyzeUser "alice"
        ({ ok := false, status := 500, json := (),
           errorJson := some (some "") } : FetchResponse Unit)).1 =
      Except.error "HTTP 500" ∧
    (Except.error "HTTP 500" : Except String Unit) ≠ Except.error "" := by
  constructor
  · rfl
  · simp

/-- C1 as amended: each of the four API client operations performs exactly
one request (no retry); on an ok response it returns the parsed JSON body
unchanged; on a non-ok response it throws an Error whose message is the
detail field of the body when present and non-empty (an unparseable body counting
as detail "Unknown error"), and otherwise "HTTP <status>". -/
theorem apiClient_single_fetch_behavior (α : Type) (u v c n : String)
    (r : FetchResponse α) :
    ((analyzeUser u r).2 = 1 ∧ (analyzeRepo u v r).2 = 1 ∧
      (enhanceREADME c n r).2 = 1 ∧ (enhancePortfolio u r).2 = 1) ∧
    (r.ok = true →
      (analyzeUser u r).1 = Except.ok r.json ∧
      (analyzeRepo u v r).1 = Except.ok r.json ∧
      (enhanceREADME c n r).1 = Except.ok r.json ∧
      (enhancePortfolio u r).1 = Except.ok r.json) ∧
    (r.ok = false →
      (analyzeUser u r).1 =
        Except.error (claimedErrorMessage r.status r.errorJson) ∧
      (analyzeRepo u v r).1 =
        Except.error (claimedErrorMessage r.status r.errorJson) ∧
      (enhanceREADME c n r).1 =
        Except.error (claimedErrorMessage r.status r.errorJson) ∧
      (enhancePortfolio u r).1 =
        Except.error (claimedErrorMessage r.status r.errorJson)) := by
  have hmsg : errorMessage r.status r.errorJson =
      claimedErrorMessage r.status r.errorJson := by
    rcases r with ⟨ok, status, json, errorJson⟩
    rcases errorJson with _ | d
    · simp [errorMessage, errorDetailField, claimedErrorMessage]
    · rcases d with _ | s
      · simp [errorMessage, errorDetailField, claimedErrorMessage]
      · by_cases hs : s = "" <;>
          simp [errorMessage, errorDetailField, claimedErrorMessage, hs]
  refine ⟨?_, fun hok => ?_, fun hnot => ?_⟩
  · by_cases hok : r.ok <;>
      simp [analyzeUser, analyzeRepo, enhanceREADME, enhancePortfolio, hok]
  · simp [analyzeUser, analyzeRepo, enhanceREADME, enhancePortfolio, hok]
  · simp [analyzeUser, analyzeRepo, enhanceREADME, enhancePortfolio, hnot, hmsg]

/-- Witness for C1: a 404 with a non-empty detail field propagates the detail
as the thrown message in all four operations with exactly one request, and an
ok response returns its body. -/
theorem apiClient_single_fetch_behavior_witness :
    ((analyzeUser "u"
        ({ ok := false, status := 404, json := 0,
           errorJson := some (some "User not found") } : FetchResponse Nat)).1 =
      Except.error (claimedErrorMessage 404 (some (some "User not found"))) ∧
      (analyzeUser "u"
        ({ ok := false, status := 404, json := 0,
           errorJson := some (some "User not found") } : FetchResponse Nat)).2 = 1) ∧
    (analyzeUser "u"
        ({ ok := true, status := 200, json := 7,
           errorJson := none } : FetchResponse Nat)).1 = Except.ok 7 :=
  ⟨⟨((apiClient_single_fetch_behavior Nat "u" "v" "c" "n"
        { ok := false, status := 404, json := 0,
          errorJson := some (some "User not found") }).2.2 rfl).1,
    ((apiClient_single_fetch_behavior Nat "u" "v" "c" "n"
        { ok := false, status := 404, json := 0,
          errorJson := some (some "User not found") }).1).1⟩,
   ((apiClient_single_fetch_behavior Nat "u" "v" "c" "n"
        { ok := true, status := 200, json := 7, errorJson := none }).2.1 rfl).1⟩

/-- C4: for every portfolio, the potential score of the enhancement plan is at
least its current score: the simulated aggregation dominates the original
one with no separate clamp step. -/
theorem enhancementPlan_potential_ge_current
    (repos : List RepositoryMetadata) (totalStars : Nat) :
    (planEnhancement repos totalStars).current_score ≤
      (planEnhancement repos totalStars).potential_score := by
  show overallScore repos totalStars ≤ potentialOverallScore repos totalStars
  unfold overallScore potentialOverallScore
  by_cases h : repos.isEmpty
  · simp [h]
  · simp only [h, if_false]
    have hsum : (repos.map healthScore).sum ≤
        (repos.map potentialHealthScore).sum := by
      refine List.sum_le_sum fun m _ => ?_
      unfold healthScore potentialHealthScore
      omega
    have hdiv := Nat.div_le_div_right (c := repos.length) hsum
    exact min_le_min le_rfl (by omega)

/-- Helper: once the enhancement is stored and nothing is in flight, every
further serialized event is a no-op for the whole mounted dashboard. -/
theorem dashRun_settled {α β : Type} (rs : List (Except String β))
    (w : AsyncDashboard α β) (hp : w.pending = 0)
    (he : w.state.enhancement.isSome = true) :
    dashRun w (serializedEvents rs) = w := by
  induction rs generalizing w with
  | nil => rfl
  | cons r rs ih =>
    have hclick : asyncStep w DashEvent.click = w := by
      simp [asyncStep, he]
    have hres : asyncStep w (DashEvent.resolve r) = w := by
      simp [asyncStep, hp]
    simp only [serializedEvents, dashRun]
    rw [hclick, hres]
    exact ih w hp he

/-- Helper: no atomic step ever turns `showEnhancement` off. -/
theorem asyncStep_show_monotone {α β : Type} (w : AsyncDashboard α β)
    (e : DashEvent β) (h : w.state.showEnhancement = true) :
    (asyncStep w e).state.showEnhancement = true := by
  cases e with
  | click =>
    by_cases hg : (w.state.username.isNone || w.state.enhancement.isSome) = true <;>
      simp [asyncStep, hg, h]
  | resolve r =>
    by_cases hp : w.pending = 0
    · simp [asyncStep, hp, h]
    · cases r <;> simp [asyncStep, hp, h]

/-- Helper: over a non-overlapping schedule, a dashboard with no request in
flight stores at most one further enhancement: the first successful
resolution fills the enhancement and every later click is guarded off. -/
theorem serialized_stores_le {α β : Type} (rs : List (Except String β)) :
    ∀ w : AsyncDashboard α β, w.pending = 0 →
      (dashRun w (serializedEvents rs)).stores ≤ w.stores + 1 := by
  induction rs with
  | nil =>
    intro w hp
    simp [serializedEvents, dashRun]
  | cons r rs ih =>
    intro w hp
    by_cases hg : (w.state.username.isNone || w.state.enhancement.isSome) = true
    · have hclick : asyncStep w DashEvent.click = w := by simp [asyncStep, hg]
      have hres : asyncStep w (DashEvent.resolve r) = w := by
        simp [asyncStep, hp]
      simp only [serializedEvents, dashRun]
      rw [hclick, hres]
      exact ih w hp
    · have hclick : asyncStep w DashEvent.click =
          { w with pending := w.pending + 1, fetches := w.fetches + 1 } := by
        simp [asyncStep, hg]
      cases r with
      | ok d =>
        have hres : asyncStep
            { w with pending := w.pending + 1, fetches := w.fetches + 1 }
            (DashEvent.resolve (Except.ok d)) =
            { state := { w.state with
                           enhancement := some d, showEnhancement := true }
              pending := w.pending + 1 - 1
              fetches := w.fetches + 1
              stores := w.stores + 1 } := by
          simp [asyncStep]
        simp only [serializedEvents, dashRun]
        rw [hclick, hres, dashRun_settled rs _ (by simp [hp]) (by simp)]
      | error msg =>
        have hres : asyncStep
            { w with pending := w.pending + 1, fetches := w.fetches + 1 }
            (DashEvent.resolve (Except.error msg)) =
            { w with pending := w.pending + 1 - 1, fetches := w.fetches + 1 } := by
          simp [asyncStep]
        simp only [serializedEvents, dashRun]
        rw [hclick, hres]
        exact ih _ (by simp [hp])

/-- C8 counterexample: on a freshly mounted dashboard with a username and no
enhancement, two clicks arriving before the first `enhancePortfolio` request
resolves both pass the guard (the handler reads it before awaiting and has
no busy flag), so two network requests are performed: the enhancement is not
fetched at most once per mounted dashboard. -/
theorem dashboard_double_fetch_counterexample :
    ¬ (dashRun
        ({ state :=
             { username := some "alice", analysis := none,
               enhancement := none, loading := false, error := none,
               showEnhancement := false },
           pending := 0, fetches := 0, stores := 0 } :
          AsyncDashboard Unit Unit)
        [DashEvent.click, DashEvent.click]).fetches ≤ 1 := by
  decide

/-- C8 as amended: with no username present or the enhancement already
loaded, a click leaves the mounted dashboard (state, in-flight requests and
counters) unchanged and performs no network request; `showEnhancement` never
transitions from true to false through this handler under any interleaving;
and among non-overlapping invocations (each request resolving before the
next click) the enhancement is stored at most once, while overlapping clicks
may each fetch. -/
theorem dashboard_enhancement_guarded {α β : Type} (w : AsyncDashboard α β)
    (evs : List (DashEvent β)) (rs : List (Except String β)) :
    ((w.state.enhancement.isSome = true ∨ w.state.username.isNone = true) →
      asyncStep w DashEvent.click = w) ∧
    (w.state.showEnhancement = true →
      (dashRun w evs).state.showEnhancement = true) ∧
    (w.pending = 0 →
      (dashRun w (serializedEvents rs)).stores ≤ w.stores + 1) := by
  refine ⟨fun h => ?_, ?_, fun hp => serialized_stores_le rs w hp⟩
  · rcases h with h | h <;> simp [asyncStep, h]
  · induction evs generalizing w with
    | nil => exact fun h => h
    | cons e es ih => exact fun h => ih _ (asyncStep_show_monotone w e h)

/-- Witness for C8: on a dashboard whose enhancement is already loaded, a
further click is a strict no-op, `showEnhancement` stays on across a click
and a resolution, and a serialized double-success schedule stores at most
one further enhancement. -/
theorem dashboard_enhancement_guarded_witness :
    (asyncStep
        ({ state :=
             { username := some "alice", analysis := none,
               enhancement := some (), loading := false, error := none,
               showEnhancement := true },
           pending := 0, fetches := 1, stores := 1 } :
          AsyncDashboard Unit Unit) DashEvent.click =
      { state :=
          { username := some "alice", analysis := none,
            enhancement := some (), loading := false, error := none,
            showEnhancement := true },
        pending := 0, fetches := 1, stores := 1 }) ∧
    (dashRun
        ({ state :=
             { username := some "alice", analysis := none,
               enhancement := some (), loading := false, error := none,
               showEnhancement := true },
           pending := 0, fetches := 1, stores := 1 } :
          AsyncDashboard Unit Unit)
        [DashEvent.click, DashEvent.resolve (Except.ok ())]).state.showEnhancement =
      true ∧
    (dashRun
        ({ state :=
             { username := some "alice", analysis := none,
               enhancement := some (), loading := false, error := none,
               showEnhancement := true },
           pending := 0, fetches := 1, stores := 1 } :
          AsyncDashboard Unit Unit)
        (serializedEvents [Except.ok (), Except.ok ()])).stores ≤ 1 + 1 :=
  ⟨(dashboard_enhancement_guarded _
      [DashEvent.click, DashEvent.resolve (Except.ok ())]
      [Except.ok (), Except.ok ()]).1 (Or.inl rfl),
   (dashboard_enhancement_guarded _
      [DashEvent.click, DashEvent.resolve (Except.ok ())]
      [Except.ok (), Except.ok ()]).2.1 rfl,
   (dashboard_enhancement_guarded _
      [DashEvent.click, DashEvent.resolve (Except.ok ())]
      [Except.ok (), Except.ok ()]).2.2 rfl⟩

/-- Helper: lowering distributes over concatenation. -/
theorem lowerChars_append (a b : List Char) :
    lowerChars (a ++ b) = lowerChars a ++ lowerChars b :=
  List.map_append _ _ _

/-- Helper: a contiguous occurrence inside a list survives appending more
material on the right. -/
theorem contained_append_left {α : Type} {kw a : List α} (b : List α)
    (h : kw <:+: a) : kw <:+: a ++ b := by
  obtain ⟨s, t, rfl⟩ := h
  exact ⟨s, t ++ b, by simp⟩

/-- Helper: a contiguous occurrence inside a list survives prepending more
material on the left. -/
theorem contained_append_right {α : Type} (a : List α) {kw b : List α}
    (h : kw <:+: b) : kw <:+: a ++ b := by
  obtain ⟨s, t, rfl⟩ := h
  exact ⟨a ++ s, t, by simp⟩

/-- Helper: a section detected in a text is still detected after appending to
the text on the right. -/
theorem hasSection_append_left {a : List Char} (b kw : List Char)
    (h : hasSection a kw = true) : hasSection (a ++ b) kw = true := by
  have h1 : kw <:+: lowerChars a := of_decide_eq_true h
  refine decide_eq_true ?_
  rw [lowerChars_append]
  exact contained_append_left _ h1

/-- Helper: a section detected in a text is still detected after prepending
to the text on the left. -/
theorem hasSection_append_right (a : List Char) {b kw : List Char}
    (h : hasSection b kw = true) : hasSection (a ++ b) kw = true := by
  have h1 : kw <:+: lowerChars b := of_decide_eq_true h
  refine decide_eq_true ?_
  rw [lowerChars_append]
  exact contained_append_right _ h1

/-- Helper: section detection transports along contiguous containment of
texts. -/
theorem hasSection_of_contained {t u kw : List Char}
    (h : hasSection t kw = true) (hi : t <:+: u) :
    hasSection u kw = true := by
  refine decide_eq_true ?_
  exact (of_decide_eq_true h).trans (hi.map Char.toLower)

/-- Helper: the image of a member of a list occurs contiguously in the
flattened image of the list. -/
theorem flatMap_contains_of_mem {α β : Type} (f : α → List β) {x : α}
    {l : List α} (h : x ∈ l) : f x <:+: l.flatMap f := by
  induction l with
  | nil => cases h
  | cons y ys ih =>
    rcases List.mem_cons.mp h with rfl | h2
    · rw [List.flatMap_cons]
      exact contained_append_left _ ⟨[], [], by simp⟩
    · rw [List.flatMap_cons]
      exact contained_append_right _ (ih h2)

/-- Helper: every synthesized template carries its own section keyword, for
any repository name. -/
theorem sectionTemplate_hasSection :
    ∀ kw ∈ sectionCatalog, ∀ repoName : List Char,
      hasSection (sectionTemplate repoName kw) kw = true := by
  intro kw hkw repoName
  fin_cases hkw <;>
    exact hasSection_append_left _ _ (by decide)

/-- Helper: the generated text misses no catalog section: a section found in
the original content survives the append, a missing one is contributed by
its synthesized template. -/
theorem missingSections_enhancedText (content repoName : List Char) :
    missingSections (enhancedText content repoName) = [] := by
  unfold missingSections
  rw [List.filter_eq_nil_iff]
  intro kw hkw
  simp only [Bool.not_eq_true', Bool.not_eq_false]
  show hasSection
    (content ++ (missingSections content).flatMap (sectionTemplate repoName))
    kw = true
  by_cases h : hasSection content kw = true
  · exact hasSection_append_left _ kw h
  · refine hasSection_append_right content ?_
    have hmem : kw ∈ missingSections content :=
      List.mem_filter.mpr ⟨hkw, by simp [h]⟩
    exact hasSection_of_contained (sectionTemplate_hasSection kw hkw repoName)
      (flatMap_contains_of_mem _ hmem)

/-- C6: the README Template Generator is idempotent on the missing-section
set: re-running it on its own output, for any input text and repository name,
yields an empty improvements list. -/
theorem generateEnhancedReadme_idempotent (content repoName : List Char) :
    (generateEnhancedReadme
        (generateEnhancedReadme content repoName).enhanced_readme
        repoName).improvements = [] := by
  show (missingSections (enhancedText content repoName)).map _ = []
  rw [missingSections_enhancedText]
  rfl

/-- Helper: the count-to-tier mapping is monotone in the section count. -/
theorem countTier_rank_mono {m n : Nat} (h : m ≤ n) :
    (countTier m).rank ≤ (countTier n).rank := by
  unfold countTier
  split_ifs <;> simp_all [QualityTier.rank] <;> omega

/-- C5: README tier classification is monotonic with section coverage: when
the recognized sections of one text form a strict superset of those of
another, the tier of the first text is never strictly lower than that of the
second under the order none < minimal < basic < good < excellent. -/
theorem readmeTier_monotone_sections (t1 t2 : List Char)
    (hsub : sectionsFound t2 ⊆ sectionsFound t1)
    (hne : ¬ sectionsFound t1 ⊆ sectionsFound t2) :
    (classifyTier (some t2)).rank ≤ (classifyTier (some t1)).rank := by
  rw [List.subset_def] at hne
  push_neg at hne
  obtain ⟨kw, hkwmem, -⟩ := hne
  obtain ⟨hkwcat, hkwsec⟩ := List.mem_filter.mp hkwmem
  have hkwne : kw ≠ [] := by
    have hall : ∀ k ∈ sectionCatalog, k ≠ ([] : List Char) := by decide
    exact hall kw hkwcat
  have hinf : kw <:+: lowerChars t1 := of_decide_eq_true hkwsec
  have ht1ne : t1.isEmpty = false := by
    rcases t1 with _ | ⟨c, cs⟩
    · exact absurd (List.infix_nil.mp hinf) hkwne
    · rfl
  have hnodup1 : (sectionsFound t1).Nodup :=
    List.Nodup.filter _ (by decide)
  have hnodup2 : (sectionsFound t2).Nodup :=
    List.Nodup.filter _ (by decide)
  have hlen : (sectionsFound t2).length ≤ (sectionsFound t1).length := by
    have hfs : (sectionsFound t2).toFinset ⊆ (sectionsFound t1).toFinset := by
      intro x hx
      rw [List.mem_toFinset] at hx ⊢
      exact hsub hx
    calc (sectionsFound t2).length
        = (sectionsFound t2).toFinset.card :=
          (List.toFinset_card_of_nodup hnodup2).symm
      _ ≤ (sectionsFound t1).toFinset.card := Finset.card_le_card hfs
      _ = (sectionsFound t1).length := List.toFinset_card_of_nodup hnodup1
  unfold classifyTier
  rcases h2 : t2.isEmpty with _ | _
  · simp only [h2, ht1ne, if_false, Bool.false_eq_true]
    exact countTier_rank_mono hlen
  · simp only [h2, ht1ne, if_true, if_false, Bool.false_eq_true]
    exact Nat.zero_le _

/-- Witness for C5: a text whose recognized sections strictly contain those
of another is not ranked lower. -/
theorem readmeTier_monotone_sections_witness :
    sectionsFound "about usage".data ⊆
      sectionsFound "installation and usage".data ∧
    ¬ sectionsFound "installation and usage".data ⊆
      sectionsFound "about usage".data ∧
    (classifyTier (some "about usage".data)).rank ≤
      (classifyTier (some "installation and usage".data)).rank :=
  ⟨by decide, by decide,
   readmeTier_monotone_sections _ _ (by decide) (by decide)⟩
